import Mathlib

/-!
# Verification of the `MemStorage` layer of ProjetoSistema-BezerraRP

Shallow embedding of `Negocio-Admin/server/storage.ts` (class `MemStorage`)
together with the record shapes of `Negocio-Admin/shared/schema.ts`.

Modelling conventions:

* Identifiers (`randomUUID()` strings) are opaque unique values; we model them
  as natural numbers drawn from a freshness counter `State.nextId`.
* Timestamps (`Date` objects, compared via their millisecond value) are
  modelled as integers (`Time := Int`).  Wherever the source calls
  `new Date()` the embedding takes the current clock value as an explicit
  argument; wherever it derives local midnight boundaries
  (`setHours(0,0,0,0)` / `setDate(+1)`) the already-computed boundary values
  are explicit arguments.
* A JavaScript `Map` preserves insertion order and has unique keys; we model
  each entity map as a `List` of records in insertion order, with
  `mapSet`/`mapGet`/`mapDelete` reproducing `Map.set`/`get`/`delete`.
* TypeScript optional / nullable fields are `Option`s.  A `Partial<...>`
  patch wraps every field in a further `Option` ("key absent"), so a
  nullable patched field has type `Option (Option _)`.
* `x || y` on strings (falsy for `""`/`null`/`undefined`) is `jsOrStr` /
  `jsOrNull`; truthiness of an optional boolean is `jsTruthy`.
* Non-null assertions (`orderData.clientId!`, `client!`, `product!`) are
  erased at runtime, so the corresponding fields stay `Option`s in the model.
* `createClient` stores `{ ...insertClient, id }` with no defaulting, and the
  insert schema (`createInsertSchema(clients).omit({id})`) makes `active`
  optional, so the stored runtime object may lack the `active` key despite
  the declared `boolean` type; we model the stored field as `Option Bool`.
* The `users` map and its three operations touch no entity a claim mentions
  and are omitted from the model.
-/

/-- Opaque unique identifier (a `randomUUID()` string in the source). -/
abbrev Uid := Nat

/-- Millisecond timestamp (the value of a JavaScript `Date`). -/
abbrev Time := Int

/-- JavaScript `x || dflt` for an optional string: `null`/`undefined` and the
empty string are falsy. -/
def jsOrStr (x : Option String) (dflt : String) : String :=
  match x with
  | none => dflt
  | some s => if s = "" then dflt else s

/-- JavaScript `x || null` for an optional string. -/
def jsOrNull (x : Option String) : Option String :=
  match x with
  | none => none
  | some s => if s = "" then none else some s

/-- JavaScript `x || null` where `x` is a possibly-absent nullable string
(a `Partial` field): both absence and `null` are falsy, as is `""`. -/
def jsOrNullFlat (x : Option (Option String)) : Option String :=
  match x with
  | some (some s) => if s = "" then none else some s
  | _ => none

/-- Truthiness of a possibly-absent boolean (`undefined` is falsy). -/
def jsTruthy (x : Option Bool) : Bool := x.getD false

/-! ## JavaScript `Map` operations on insertion-ordered lists -/

/-- Embedding of `Map.set`: replace in place when the key exists, else append. -/
def mapSet (key : α → Uid) (l : List α) (v : α) : List α :=
  if l.any (fun x => key x == key v) then
    l.map (fun x => if key x == key v then v else x)
  else
    l ++ [v]

/-- Embedding of `Map.get`: the entry with the given key, if any. -/
def mapGet (key : α → Uid) (l : List α) (k : Uid) : Option α :=
  l.find? (fun x => key x == k)

/-- Embedding of `Map.delete`: remove the entry with the given key; report whether an
entry existed. -/
def mapDelete (key : α → Uid) (l : List α) (k : Uid) : List α × Bool :=
  (l.filter (fun x => !(key x == k)), l.any (fun x => key x == k))

/-- Embedding of the loop `items.forEach(item => map.delete(item.id))` over collected ids. -/
def deleteAllByIds (key : α → Uid) (l : List α) (ids : List Uid) : List α :=
  ids.foldl (fun acc j => acc.filter (fun x => !(key x == j))) l

/-! ## Entity records (shared/schema.ts select shapes) -/

/-- Embedding of `Client` (schema.ts:45-64).  `type` is spelled `ctype` (reserved-ish in
Lean).  `active` is `Option Bool`: see the header note on `createClient`. -/
structure Client where
  id : Uid
  ctype : String
  name : String
  tradeName : Option String := none
  document : String
  stateRegistration : Option String := none
  email : Option String := none
  phone : Option String := none
  cellphone : Option String := none
  zipCode : Option String := none
  street : Option String := none
  number : Option String := none
  complement : Option String := none
  neighborhood : Option String := none
  city : Option String := none
  state : Option String := none
  notes : Option String := none
  active : Option Bool := none
deriving DecidableEq

/-- Embedding of `InsertClient` (schema.ts:66-67): `Client` minus `id`; `active` optional. -/
structure InsertClient where
  ctype : String
  name : String
  tradeName : Option String := none
  document : String
  stateRegistration : Option String := none
  email : Option String := none
  phone : Option String := none
  cellphone : Option String := none
  zipCode : Option String := none
  street : Option String := none
  number : Option String := none
  complement : Option String := none
  neighborhood : Option String := none
  city : Option String := none
  state : Option String := none
  notes : Option String := none
  active : Option Bool := none
deriving DecidableEq

/-- Embedding of `Partial<InsertClient>`: every field possibly absent. -/
structure ClientPatch where
  ctype : Option String := none
  name : Option String := none
  tradeName : Option (Option String) := none
  document : Option String := none
  stateRegistration : Option (Option String) := none
  email : Option (Option String) := none
  phone : Option (Option String) := none
  cellphone : Option (Option String) := none
  zipCode : Option (Option String) := none
  street : Option (Option String) := none
  number : Option (Option String) := none
  complement : Option (Option String) := none
  neighborhood : Option (Option String) := none
  city : Option (Option String) := none
  state : Option (Option String) := none
  notes : Option (Option String) := none
  active : Option Bool := none
deriving DecidableEq

/-- Embedding of `Supplier` (schema.ts:22-26). -/
structure Supplier where
  id : Uid
  name : String
  active : Bool
deriving DecidableEq

/-- Embedding of `Product` (schema.ts:33-38). -/
structure Product where
  id : Uid
  name : String
  unit : String
  active : Bool
deriving DecidableEq

/-- Embedding of `Order` (schema.ts:71-80).  `clientId`/`supplierId` are `Option`s because
`createOrder` copies them from a `Partial<InsertOrder>` through erased
non-null assertions (storage.ts:465-466); `totalValue` is an `Option` decimal
string (`getDashboardStats` guards it with `?.`, storage.ts:659). -/
structure Order where
  id : Uid
  orderNumber : Nat
  clientId : Option Uid := none
  supplierId : Option Uid := none
  status : String
  totalValue : Option String := none
  notes : Option String := none
  createdAt : Time
deriving DecidableEq

/-- Embedding of `Partial<InsertOrder>` (insert schema omits `id` and `createdAt`,
schema.ts:82); used both as `createOrder`'s first argument and as
`updateOrder`'s patch. -/
structure OrderPatch where
  orderNumber : Option Nat := none
  clientId : Option Uid := none
  supplierId : Option Uid := none
  status : Option String := none
  totalValue : Option String := none
  notes : Option (Option String) := none
deriving DecidableEq

/-- Embedding of `OrderItem` (schema.ts:87-94). -/
structure OrderItem where
  id : Uid
  orderId : Uid
  productId : Uid
  quantity : String
  unitPrice : String
  totalPrice : String
deriving DecidableEq

/-- Embedding of `InsertOrderItem` (schema.ts:96): `OrderItem` minus `id` (the `orderId`
field is present in the insert shape but `createOrder` overrides it with the
new order's id, storage.ts:480). -/
structure InsertOrderItem where
  orderId : Uid
  productId : Uid
  quantity : String
  unitPrice : String
  totalPrice : String
deriving DecidableEq

/-- Embedding of `Delivery` (schema.ts:101-112). -/
structure Delivery where
  id : Uid
  orderId : Uid
  scheduledDate : Time
  scheduledTime : Option String := none
  status : String
  deliveryAddress : Option String := none
  driverName : Option String := none
  vehiclePlate : Option String := none
  notes : Option String := none
  deliveredAt : Option Time := none
deriving DecidableEq

/-- Embedding of `InsertDelivery` (schema.ts:114): `Delivery` minus `id`; note the insert
shape does include a `deliveredAt` field (only `id` is omitted). -/
structure InsertDelivery where
  orderId : Uid
  scheduledDate : Time
  scheduledTime : Option String := none
  status : Option String := none
  deliveryAddress : Option String := none
  driverName : Option String := none
  vehiclePlate : Option String := none
  notes : Option String := none
  deliveredAt : Option Time := none
deriving DecidableEq

/-- Embedding of `Partial<InsertDelivery>`: every field possibly absent. -/
structure DeliveryPatch where
  orderId : Option Uid := none
  scheduledDate : Option Time := none
  scheduledTime : Option (Option String) := none
  status : Option String := none
  deliveryAddress : Option (Option String) := none
  driverName : Option (Option String) := none
  vehiclePlate : Option (Option String) := none
  notes : Option (Option String) := none
  deliveredAt : Option (Option Time) := none
deriving DecidableEq

/-- Embedding of `Invoice` (schema.ts:119-127). -/
structure Invoice where
  id : Uid
  orderId : Uid
  invoiceNumber : String
  series : Option String := none
  issueDate : Time
  value : Option String := none
  notes : Option String := none
deriving DecidableEq

/-- Embedding of `InsertInvoice` (schema.ts:129): `Invoice` minus `id`. -/
structure InsertInvoice where
  orderId : Uid
  invoiceNumber : String
  series : Option String := none
  issueDate : Time
  value : Option String := none
  notes : Option String := none
deriving DecidableEq

/-- Embedding of `OrderWithDetails` (schema.ts:134-140).  The `client!` / `supplier!` /
`product!` assertions of `buildOrderWithDetails` are erased at runtime, so
the attached records stay optional. -/
structure OrderWithDetails extends Order where
  client : Option Client
  supplier : Option Supplier
  items : List (OrderItem × Option Product)
  deliveries : List Delivery
  invoices : List Invoice
deriving DecidableEq

/-- The `Order & { client; supplier }` attached to a delivery
(schema.ts:143-146). -/
structure OrderWithClientSupplier extends Order where
  client : Option Client
  supplier : Option Supplier
deriving DecidableEq

/-- Embedding of `DeliveryWithDetails` (schema.ts:142-147); `order` is `undefined as any`
when the parent order is missing (storage.ts:707), hence an `Option`. -/
structure DeliveryWithDetails extends Delivery where
  order : Option OrderWithClientSupplier
deriving DecidableEq

/-- Embedding of `DashboardStats` (schema.ts:150-155).  `monthlyValue` is an
`Option ℚ`: `none` models the JavaScript `NaN` that `parseFloat` produces on
a malformed monetary string and that addition then propagates. -/
structure DashboardStats where
  pendingOrders : Nat
  todayDeliveries : Nat
  activeClients : Nat
  monthlyValue : Option ℚ
deriving DecidableEq

/-! ## Storage state -/

/-- The entity maps of `MemStorage` (storage.ts:72-94) plus the freshness
counter `nextId` modelling `randomUUID()`.  The `users` map is omitted (no
claim concerns it). -/
structure State where
  clients : List Client := []
  products : List Product := []
  suppliers : List Supplier := []
  orders : List Order := []
  orderItems : List OrderItem := []
  deliveries : List Delivery := []
  invoices : List Invoice := []
  orderCounter : Nat := 1000
  nextId : Uid := 0
deriving DecidableEq

/-- The constructor state before `seedData` (storage.ts:82-94):
`orderCounter = 1000`, all maps empty.  `seedData` (storage.ts:96-359) then
inserts fixed sample rows and leaves `orderCounter = 1003` after seeding
three orders; no claim depends on the sample rows themselves. -/
def emptyState : State := { orderCounter := 1000, nextId := 0 }

/-! ## Client operations (storage.ts:380-408) -/

/-- Embedding of `getClients` (storage.ts:380-382). -/
def getClients (s : State) : List Client := s.clients

/-- Embedding of `getClient` (storage.ts:384-386). -/
def getClient (s : State) (k : Uid) : Option Client :=
  mapGet Client.id s.clients k

/-- Embedding of `createClient` (storage.ts:388-393): `{ ...insertClient, id }` — the
input fields are stored verbatim, with no defaulting. -/
def createClient (s : State) (ic : InsertClient) : Client × State :=
  let c : Client :=
    { id := s.nextId
      ctype := ic.ctype
      name := ic.name
      tradeName := ic.tradeName
      document := ic.document
      stateRegistration := ic.stateRegistration
      email := ic.email
      phone := ic.phone
      cellphone := ic.cellphone
      zipCode := ic.zipCode
      street := ic.street
      number := ic.number
      complement := ic.complement
      neighborhood := ic.neighborhood
      city := ic.city
      state := ic.state
      notes := ic.notes
      active := ic.active }
  (c, { s with clients := mapSet Client.id s.clients c, nextId := s.nextId + 1 })

/-- The record merge `{ ...client, ...data }` of `updateClient`
(storage.ts:401). -/
def updateClientRec (c : Client) (p : ClientPatch) : Client :=
  { id := c.id
    ctype := p.ctype.getD c.ctype
    name := p.name.getD c.name
    tradeName := p.tradeName.getD c.tradeName
    document := p.document.getD c.document
    stateRegistration := p.stateRegistration.getD c.stateRegistration
    email := p.email.getD c.email
    phone := p.phone.getD c.phone
    cellphone := p.cellphone.getD c.cellphone
    zipCode := p.zipCode.getD c.zipCode
    street := p.street.getD c.street
    number := p.number.getD c.number
    complement := p.complement.getD c.complement
    neighborhood := p.neighborhood.getD c.neighborhood
    city := p.city.getD c.city
    state := p.state.getD c.state
    notes := p.notes.getD c.notes
    active := (p.active.map some).getD c.active }

/-- Embedding of `updateClient` (storage.ts:395-404). -/
def updateClient (s : State) (k : Uid) (p : ClientPatch) : Option Client × State :=
  match mapGet Client.id s.clients k with
  | none => (none, s)
  | some c =>
      let u := updateClientRec c p
      (some u, { s with clients := mapSet Client.id s.clients u })

/-- Embedding of `deleteClient` (storage.ts:406-408). -/
def deleteClient (s : State) (k : Uid) : Bool × State :=
  let r := mapDelete Client.id s.clients k
  (r.2, { s with clients := r.1 })

/-! ## Order operations (storage.ts:429-530) -/

/-- Embedding of `buildOrderWithDetails` (storage.ts:666-690). -/
def buildOrderWithDetails (s : State) (o : Order) : OrderWithDetails :=
  { toOrder := o
    client := o.clientId.bind (mapGet Client.id s.clients)
    supplier := o.supplierId.bind (mapGet Supplier.id s.suppliers)
    items := (s.orderItems.filter (fun it => it.orderId == o.id)).map
      (fun it => (it, mapGet Product.id s.products it.productId))
    deliveries := s.deliveries.filter (fun d => d.orderId == o.id)
    invoices := s.invoices.filter (fun i => i.orderId == o.id) }

/-- The comparator of `getOrders` (storage.ts:438-441):
`(a, b) => b.createdAt - a.createdAt`, i.e. newest first. -/
def createdDesc (a b : OrderWithDetails) : Prop :=
  b.createdAt ≤ a.createdAt

instance : DecidableRel createdDesc := fun a b => Int.decLe b.createdAt a.createdAt

instance : IsTotal OrderWithDetails createdDesc :=
  ⟨fun a b => le_total b.createdAt a.createdAt⟩

instance : IsTrans OrderWithDetails createdDesc :=
  ⟨fun _ _ _ h1 h2 => le_trans h2 h1⟩

/-- Embedding of `getOrders` (storage.ts:429-442): detail-enrich every order, then sort
by `createdAt` descending (stable sort, modelled by insertion sort; the
spec leaves tie order unconstrained). -/
def getOrders (s : State) : List OrderWithDetails :=
  List.insertionSort createdDesc (s.orders.map (buildOrderWithDetails s))

/-- Embedding of `getOrder` (storage.ts:444-448). -/
def getOrder (s : State) (k : Uid) : Option OrderWithDetails :=
  (mapGet Order.id s.orders k).map (buildOrderWithDetails s)

/-- Embedding of `getRecentOrders` (storage.ts:450-453): `orders.slice(0, limit)`; the
limit is the nonnegative count the routes pass (routes.ts:116). -/
def getRecentOrders (s : State) (limit : Nat) : List OrderWithDetails :=
  (getOrders s).take limit

/-- The item-creation step of `createOrder`'s loop (storage.ts:476-487):
store one `OrderItem` with a fresh id and `orderId` pinned to the new
order's id. -/
def addOrderItem (oid : Uid) (st : State) (it : InsertOrderItem) : State :=
  let item : OrderItem :=
    { id := st.nextId
      orderId := oid
      productId := it.productId
      quantity := it.quantity
      unitPrice := it.unitPrice
      totalPrice := it.totalPrice }
  { st with orderItems := mapSet OrderItem.id st.orderItems item
            nextId := st.nextId + 1 }

/-- Embedding of `createOrder` (storage.ts:455-490): bump the counter, store the order
(with defaults for `status`/`totalValue`/`notes`), then store the items. -/
def createOrder (s : State) (orderData : OrderPatch) (items : List InsertOrderItem)
    (now : Time) : OrderWithDetails × State :=
  let oid := s.nextId
  let counter := s.orderCounter + 1
  let order : Order :=
    { id := oid
      orderNumber := counter
      clientId := orderData.clientId
      supplierId := orderData.supplierId
      status := jsOrStr orderData.status "pending"
      totalValue := some (jsOrStr orderData.totalValue "0")
      notes := jsOrNullFlat orderData.notes
      createdAt := now }
  let s1 : State :=
    { s with orders := mapSet Order.id s.orders order
             orderCounter := counter
             nextId := s.nextId + 1 }
  let s2 : State := items.foldl (addOrderItem oid) s1
  (buildOrderWithDetails s2 order, s2)

/-- The record merge `{ ...order, ...data }` of `updateOrder`
(storage.ts:498). -/
def updateOrderRec (o : Order) (p : OrderPatch) : Order :=
  { id := o.id
    orderNumber := p.orderNumber.getD o.orderNumber
    clientId := (p.clientId.map some).getD o.clientId
    supplierId := (p.supplierId.map some).getD o.supplierId
    status := p.status.getD o.status
    totalValue := (p.totalValue.map some).getD o.totalValue
    notes := p.notes.getD o.notes
    createdAt := o.createdAt }

/-- Embedding of `updateOrder` (storage.ts:492-501). -/
def updateOrder (s : State) (k : Uid) (p : OrderPatch) : Option Order × State :=
  match mapGet Order.id s.orders k with
  | none => (none, s)
  | some o =>
      let u := updateOrderRec o p
      (some u, { s with orders := mapSet Order.id s.orders u })

/-- Embedding of `deleteOrder` (storage.ts:503-523): collect and delete the related
order items, deliveries and invoices (by their own ids), then delete the
order itself, returning `Map.delete`'s result. -/
def deleteOrder (s : State) (k : Uid) : Bool × State :=
  let itemIds := ((s.orderItems.filter (fun it => it.orderId == k)).map OrderItem.id)
  let deliveryIds := ((s.deliveries.filter (fun d => d.orderId == k)).map Delivery.id)
  let invoiceIds := ((s.invoices.filter (fun i => i.orderId == k)).map Invoice.id)
  let r := mapDelete Order.id s.orders k
  (r.2,
    { s with orderItems := deleteAllByIds OrderItem.id s.orderItems itemIds
             deliveries := deleteAllByIds Delivery.id s.deliveries deliveryIds
             invoices := deleteAllByIds Invoice.id s.invoices invoiceIds
             orders := r.1 })

/-- Embedding of `getOrderItems` (storage.ts:526-530). -/
def getOrderItems (s : State) (orderId : Uid) : List OrderItem :=
  s.orderItems.filter (fun it => it.orderId == orderId)

/-! ## Delivery operations (storage.ts:533-610) -/

/-- Embedding of `buildDeliveryWithDetails` (storage.ts:692-709). -/
def buildDeliveryWithDetails (s : State) (d : Delivery) : DeliveryWithDetails :=
  { toDelivery := d
    order := (mapGet Order.id s.orders d.orderId).map (fun o =>
      { toOrder := o
        client := o.clientId.bind (mapGet Client.id s.clients)
        supplier := o.supplierId.bind (mapGet Supplier.id s.suppliers) }) }

/-- The comparator of `getDeliveries` (storage.ts:542-546):
`(a, b) => b.scheduledDate - a.scheduledDate`, i.e. latest first. -/
def schedDesc (a b : DeliveryWithDetails) : Prop :=
  b.scheduledDate ≤ a.scheduledDate

instance : DecidableRel schedDesc := fun a b => Int.decLe b.scheduledDate a.scheduledDate

instance : IsTotal DeliveryWithDetails schedDesc :=
  ⟨fun a b => le_total b.scheduledDate a.scheduledDate⟩

instance : IsTrans DeliveryWithDetails schedDesc :=
  ⟨fun _ _ _ h1 h2 => le_trans h2 h1⟩

/-- Embedding of `getDeliveries` (storage.ts:533-547): detail-enrich, then sort by
`scheduledDate` descending. -/
def getDeliveries (s : State) : List DeliveryWithDetails :=
  List.insertionSort schedDesc (s.deliveries.map (buildDeliveryWithDetails s))

/-- Embedding of `getDelivery` (storage.ts:549-553). -/
def getDelivery (s : State) (k : Uid) : Option DeliveryWithDetails :=
  (mapGet Delivery.id s.deliveries k).map (buildDeliveryWithDetails s)

/-- The window test `scheduledDate >= today && scheduledDate < tomorrow`
(storage.ts:563, also storage.ts:646). -/
def inDayWindow (todayStart tomorrowStart : Time) (t : Time) : Bool :=
  decide (todayStart ≤ t) && decide (t < tomorrowStart)

/-- Embedding of `getTodayDeliveries` (storage.ts:555-573).  The source computes
`today` as the clock value floored to local midnight (`setHours(0,0,0,0)`)
and `tomorrow` as the following local midnight (`setDate(+1)`); those two
boundary instants are the explicit arguments here.  Note: the filtered
result is detail-enriched and returned in map insertion order — there is
no sort in this method. -/
def getTodayDeliveries (s : State) (todayStart tomorrowStart : Time) :
    List DeliveryWithDetails :=
  ((s.deliveries.filter (fun d => inDayWindow todayStart tomorrowStart d.scheduledDate)).map
    (buildDeliveryWithDetails s))

/-- Embedding of `createDelivery` (storage.ts:575-591): defaults for the omitted optional
fields, and `deliveredAt` pinned to `null` whatever the input holds. -/
def createDelivery (s : State) (ins : InsertDelivery) : Delivery × State :=
  let d : Delivery :=
    { id := s.nextId
      orderId := ins.orderId
      scheduledDate := ins.scheduledDate
      scheduledTime := jsOrNull ins.scheduledTime
      status := jsOrStr ins.status "pending"
      deliveryAddress := jsOrNull ins.deliveryAddress
      driverName := jsOrNull ins.driverName
      vehiclePlate := jsOrNull ins.vehiclePlate
      notes := jsOrNull ins.notes
      deliveredAt := none }
  (d, { s with deliveries := mapSet Delivery.id s.deliveries d, nextId := s.nextId + 1 })

/-- The record update of `updateDelivery` (storage.ts:600-607):
`{ ...delivery, ...data, deliveredAt: data.status === "delivered" &&
!delivery.deliveredAt ? new Date() : delivery.deliveredAt }`.  The trailing
`deliveredAt:` entry overrides anything the patch carried for that field. -/
def updateDeliveryRec (d : Delivery) (p : DeliveryPatch) (now : Time) : Delivery :=
  { id := d.id
    orderId := p.orderId.getD d.orderId
    scheduledDate := p.scheduledDate.getD d.scheduledDate
    scheduledTime := p.scheduledTime.getD d.scheduledTime
    status := p.status.getD d.status
    deliveryAddress := p.deliveryAddress.getD d.deliveryAddress
    driverName := p.driverName.getD d.driverName
    vehiclePlate := p.vehiclePlate.getD d.vehiclePlate
    notes := p.notes.getD d.notes
    deliveredAt :=
      if p.status = some "delivered" ∧ d.deliveredAt = none then some now
      else d.deliveredAt }

/-- Embedding of `updateDelivery` (storage.ts:593-610). -/
def updateDelivery (s : State) (k : Uid) (p : DeliveryPatch) (now : Time) :
    Option Delivery × State :=
  match mapGet Delivery.id s.deliveries k with
  | none => (none, s)
  | some d =>
      let u := updateDeliveryRec d p now
      (some u, { s with deliveries := mapSet Delivery.id s.deliveries u })

/-- A sequence of `updateDelivery` calls applied to one stored record, each
with its own patch and clock value. -/
def applyUpdates (d : Delivery) (ups : List (DeliveryPatch × Time)) : Delivery :=
  ups.foldl (fun acc u => updateDeliveryRec acc u.1 u.2) d

/-! ## Invoice operations (storage.ts:613-632) -/

/-- Embedding of `getInvoices` (storage.ts:613-617). -/
def getInvoices (s : State) (orderId : Uid) : List Invoice :=
  s.invoices.filter (fun i => i.orderId == orderId)

/-- Embedding of `createInvoice` (storage.ts:619-632). -/
def createInvoice (s : State) (ins : InsertInvoice) : Invoice × State :=
  let inv : Invoice :=
    { id := s.nextId
      orderId := ins.orderId
      invoiceNumber := ins.invoiceNumber
      series := jsOrNull ins.series
      issueDate := ins.issueDate
      value := jsOrNull ins.value
      notes := jsOrNull ins.notes }
  (inv, { s with invoices := mapSet Invoice.id s.invoices inv, nextId := s.nextId + 1 })

/-! ## Dashboard (storage.ts:635-663) -/

/-- Digit run to a natural number. -/
def digitsToNat (cs : List Char) : Nat :=
  cs.foldl (fun n c => n * 10 + (c.toNat - 48)) 0

/-- Split a character run at the first decimal point, if any. -/
def splitAtDot : List Char → List Char × Option (List Char)
  | [] => ([], none)
  | c :: cs =>
      if c = '.' then ([], some cs)
      else
        let r := splitAtDot cs
        (c :: r.1, r.2)

/-- JavaScript `parseFloat` on the unsigned decimal literals this
application stores (`"4500.00"`, `"0"`, `"45."`): integer part, optional
fractional part.  Any other input maps to `none`, modelling `NaN`. -/
def parseFloatQ (str : String) : Option ℚ :=
  match splitAtDot str.data with
  | (i, none) =>
      if i ≠ [] ∧ i.all Char.isDigit then some (digitsToNat i) else none
  | (i, some f) =>
      if i ≠ [] ∧ i.all Char.isDigit ∧ f.all Char.isDigit then
        some ((digitsToNat i : ℚ) + (digitsToNat f : ℚ) / (10 : ℚ) ^ f.length)
      else none

/-- JavaScript `+` where either side may be `NaN`. -/
def jsAdd (a b : Option ℚ) : Option ℚ :=
  match a, b with
  | some x, some y => some (x + y)
  | _, _ => none

/-- Embedding of `getDashboardStats` (storage.ts:635-663).  `todayStart`/`tomorrowStart`
are the two local-midnight boundaries the source derives from the clock
(storage.ts:639-642) and `monthStart` is
`new Date(today.getFullYear(), today.getMonth(), 1)` (storage.ts:649). -/
def getDashboardStats (s : State) (todayStart tomorrowStart monthStart : Time) :
    DashboardStats :=
  let todayDel := s.deliveries.filter
    (fun d => inDayWindow todayStart tomorrowStart d.scheduledDate)
  let monthlyOrders := s.orders.filter (fun o => decide (monthStart ≤ o.createdAt))
  { pendingOrders := (s.orders.filter (fun o => o.status == "pending")).length
    todayDeliveries := todayDel.length
    activeClients := (s.clients.filter (fun c => jsTruthy c.active)).length
    monthlyValue := monthlyOrders.foldl
      (fun acc o => jsAdd acc (parseFloatQ (jsOrStr o.totalValue "0"))) (some 0) }

/-! ## The mutating API as a step relation (for trace-level claims) -/

/-- One mutating call of the storage API (the `users` operations, which no
claim concerns, are omitted). -/
inductive Op where
  | createClient (ic : InsertClient)
  | updateClient (k : Uid) (p : ClientPatch)
  | deleteClient (k : Uid)
  | createOrder (orderData : OrderPatch) (items : List InsertOrderItem) (now : Time)
  | updateOrder (k : Uid) (p : OrderPatch)
  | deleteOrder (k : Uid)
  | createDelivery (ins : InsertDelivery)
  | updateDelivery (k : Uid) (p : DeliveryPatch) (now : Time)
  | createInvoice (ins : InsertInvoice)
deriving DecidableEq

/-- The state transition of one call (return values projected away). -/
def step (s : State) : Op → State
  | .createClient ic => (createClient s ic).2
  | .updateClient k p => (updateClient s k p).2
  | .deleteClient k => (deleteClient s k).2
  | .createOrder orderData items now => (createOrder s orderData items now).2
  | .updateOrder k p => (updateOrder s k p).2
  | .deleteOrder k => (deleteOrder s k).2
  | .createDelivery ins => (createDelivery s ins).2
  | .updateDelivery k p now => (updateDelivery s k p now).2
  | .createInvoice ins => (createInvoice s ins).2

/-- The `orderNumber`s one call assigns (storage.ts:460-464): `createOrder`
increments the counter and stamps the new value; no other call assigns one. -/
def opAssigns (s : State) : Op → List Nat
  | .createOrder _ _ _ => [s.orderCounter + 1]
  | _ => []

/-- The `orderNumber`s assigned at creation time along a run of calls. -/
def assignedNumbers (s : State) : List Op → List Nat
  | [] => []
  | op :: rest => opAssigns s op ++ assignedNumbers (step s op) rest

/-! ## Well-formedness of a storage state

A JavaScript `Map` cannot hold two entries with the same key, and every id
handed out by the model's freshness counter is below `nextId`.  All states
reachable from the constructor state satisfy this; the claims that need it
take it as a hypothesis. -/

def wf (s : State) : Prop :=
  (s.clients.map Client.id).Nodup ∧ (∀ c ∈ s.clients, c.id < s.nextId) ∧
  (s.products.map Product.id).Nodup ∧ (∀ p ∈ s.products, p.id < s.nextId) ∧
  (s.suppliers.map Supplier.id).Nodup ∧ (∀ x ∈ s.suppliers, x.id < s.nextId) ∧
  (s.orders.map Order.id).Nodup ∧ (∀ o ∈ s.orders, o.id < s.nextId) ∧
  (s.orderItems.map OrderItem.id).Nodup ∧ (∀ it ∈ s.orderItems, it.id < s.nextId) ∧
  (s.deliveries.map Delivery.id).Nodup ∧ (∀ d ∈ s.deliveries, d.id < s.nextId) ∧
  (s.invoices.map Invoice.id).Nodup ∧ (∀ i ∈ s.invoices, i.id < s.nextId)

instance (s : State) : Decidable (wf s) := by
  unfold wf; infer_instance

/-! ## Map lemmas -/

/-- Replacing in place (the existing-key branch of `Map.set`) makes the
lookup return the new value exactly when the key occurred. -/
theorem find?_map_replace (key : α → Uid) (v : α) (l : List α) :
    (l.map (fun x => if key x == key v then v else x)).find? (fun x => key x == key v) =
      if l.any (fun x => key x == key v) then some v else none := by
  induction l with
  | nil => simp
  | cons a l ih =>
      by_cases h : key a = key v
      · have hb : (key a == key v) = true := by simpa using h
        rw [List.map_cons, if_pos hb, List.find?_cons_of_pos _ (by simp),
          List.any_cons, hb]
        simp
      · have hb : (key a == key v) = false := by simpa using h
        rw [List.map_cons, if_neg (by simp [hb]),
          List.find?_cons_of_neg _ (by simp [hb]), List.any_cons, hb]
        simpa using ih

/-- After `Map.set`, looking up the stored value's key returns it. -/
theorem mapGet_mapSet_self (key : α → Uid) (l : List α) (v : α) :
    mapGet key (mapSet key l v) (key v) = some v := by
  unfold mapGet mapSet
  by_cases hl : l.any (fun x => key x == key v)
  · rw [if_pos hl, find?_map_replace, if_pos hl]
  · rw [if_neg hl]
    induction l with
    | nil => simp
    | cons a l ih =>
        have ha : ¬(key a = key v) := by
          intro h
          exact hl (by simp [List.any_cons, h])
        have hl' : ¬(l.any (fun x => key x == key v) = true) := by
          intro h
          exact hl (by simp [List.any_cons, h])
        simpa [List.find?_cons, ha] using ih hl'

/-- Unfolding: `deleteAllByIds` is a single filter by non-membership of the key. -/
theorem deleteAllByIds_eq_filter (key : α → Uid) (ids : List Uid) (l : List α) :
    deleteAllByIds key l ids = l.filter (fun x => decide (key x ∉ ids)) := by
  induction ids generalizing l with
  | nil => simp [deleteAllByIds]
  | cons j ids ih =>
      show deleteAllByIds key (l.filter (fun x => !(key x == j))) ids = _
      rw [ih, List.filter_filter]
      apply List.filter_congr
      intro x _
      by_cases hj : key x = j <;> by_cases hm : key x ∈ ids <;>
        simp [hj, hm, List.mem_cons]

/-- Deleting the collected matching entries leaves no matching entry. -/
theorem filter_deleteAllByIds_matching (key : α → Uid) (q : α → Bool) (l : List α) :
    (deleteAllByIds key l ((l.filter q).map key)).filter q = [] := by
  rw [deleteAllByIds_eq_filter, List.filter_filter, List.filter_eq_nil_iff]
  intro x hx
  by_cases hq : q x
  · simp only [hq, Bool.true_and, decide_eq_true_eq]
    intro hnot
    exact hnot (List.mem_map.mpr ⟨x, List.mem_filter.mpr ⟨hx, hq⟩, rfl⟩)
  · simp [hq]

/-- Under unique keys, deleting the collected matching entries is exactly
filtering the matching ones out. -/
theorem deleteAllByIds_matching_eq_filter (key : α → Uid) (q : α → Bool) (l : List α)
    (h : (l.map key).Nodup) :
    deleteAllByIds key l ((l.filter q).map key) = l.filter (fun x => !(q x)) := by
  rw [deleteAllByIds_eq_filter]
  apply List.filter_congr
  intro x hx
  have hiff : key x ∈ (l.filter q).map key ↔ q x = true := by
    constructor
    · intro hmem
      rcases List.mem_map.mp hmem with ⟨y, hy, hkey⟩
      rcases List.mem_filter.mp hy with ⟨hyl, hyq⟩
      have : y = x := List.inj_on_of_nodup_map h hyl hx hkey
      exact this ▸ hyq
    · intro hq
      exact List.mem_map.mpr ⟨x, List.mem_filter.mpr ⟨hx, hq⟩, rfl⟩
  by_cases hq : q x <;> simp [hq, hiff]

/-- Behaviour of `deliveredAt` across any sequence of `updateDelivery` record merges: a
previously set timestamp is preserved verbatim; otherwise the first update
whose patch sets status `"delivered"` stamps its clock value, and no later
update changes it. -/
theorem applyUpdates_deliveredAt (d : Delivery) (ups : List (DeliveryPatch × Time)) :
    (applyUpdates d ups).deliveredAt =
      match d.deliveredAt with
      | some t => some t
      | none =>
          (ups.find? (fun u => decide (u.1.status = some "delivered"))).map Prod.snd := by
  induction ups generalizing d with
  | nil => cases hd : d.deliveredAt <;> simp [applyUpdates, hd]
  | cons u ups ih =>
      show (applyUpdates (updateDeliveryRec d u.1 u.2) ups).deliveredAt = _
      rw [ih]
      cases hd : d.deliveredAt with
      | some t =>
          have : (updateDeliveryRec d u.1 u.2).deliveredAt = some t := by
            simp [updateDeliveryRec, hd]
          simp [this]
      | none =>
          by_cases hs : u.1.status = some "delivered"
          · have h1 : (updateDeliveryRec d u.1 u.2).deliveredAt = some u.2 := by
              simp [updateDeliveryRec, hd, hs]
            rw [h1, List.find?_cons_of_pos _ (by simp [hs])]
            rfl
          · have h1 : (updateDeliveryRec d u.1 u.2).deliveredAt = none := by
              simp [updateDeliveryRec, hd, hs]
            rw [h1, List.find?_cons_of_neg _ (by simp [hs])]

/-- Result of `getOrders` is sorted newest-first. -/
theorem getOrders_sorted (s : State) : List.Sorted createdDesc (getOrders s) :=
  List.sorted_insertionSort createdDesc _

/-- Result of `getDeliveries` is sorted latest-first. -/
theorem getDeliveries_sorted (s : State) : List.Sorted schedDesc (getDeliveries s) :=
  List.sorted_insertionSort schedDesc _

theorem sorted_take {r : α → α → Prop} {l : List α} (h : List.Sorted r l) (n : Nat) :
    List.Sorted r (l.take n) :=
  List.Pairwise.sublist (List.take_sublist n l) h

/-- Folding JavaScript additions of well-parsed values is the rational sum. -/
theorem foldl_jsAdd_eq_sum (f : α → Option ℚ) (g : α → ℚ) (l : List α)
    (h : ∀ x ∈ l, f x = some (g x)) :
    ∀ q0 : ℚ, l.foldl (fun acc x => jsAdd acc (f x)) (some q0) = some (q0 + (l.map g).sum) := by
  induction l with
  | nil => intro q0; simp
  | cons x l ih =>
      intro q0
      have hx := h x (List.mem_cons_self x l)
      have ih' := ih (fun y hy => h y (List.mem_cons_of_mem x hy)) (q0 + g x)
      have hstep : jsAdd (some q0) (f x) = some (q0 + g x) := by rw [hx]; rfl
      rw [List.foldl_cons, hstep, ih']
      simp [add_assoc]

/-! ## Lemmas about the step relation (order-number bookkeeping) -/

theorem foldl_addOrderItem_counter (oid : Uid) (items : List InsertOrderItem) :
    ∀ st : State, (items.foldl (addOrderItem oid) st).orderCounter = st.orderCounter := by
  induction items with
  | nil => intro st; rfl
  | cons it items ih => intro st; rw [List.foldl_cons, ih]; rfl

/-- The item-creation loop of `createOrder` never touches the orders map. -/
theorem foldl_addOrderItem_orders (oid : Uid) (items : List InsertOrderItem) :
    ∀ st : State, (items.foldl (addOrderItem oid) st).orders = st.orders := by
  induction items with
  | nil => intro st; rfl
  | cons it items ih => intro st; rw [List.foldl_cons, ih]; rfl

/-- Counter effect: `createOrder` bumps the counter by exactly one. -/
theorem createOrder_counter (s : State) (od : OrderPatch) (items : List InsertOrderItem)
    (now : Time) : (createOrder s od items now).2.orderCounter = s.orderCounter + 1 := by
  show (items.foldl (addOrderItem s.nextId) _).orderCounter = _
  rw [foldl_addOrderItem_counter]

/-- No operation ever decreases the order counter. -/
theorem step_counter_mono (s : State) (op : Op) :
    s.orderCounter ≤ (step s op).orderCounter := by
  cases op with
  | createClient ic => exact le_refl _
  | updateClient k p =>
      show s.orderCounter ≤ (updateClient s k p).2.orderCounter
      unfold updateClient
      cases mapGet Client.id s.clients k <;> exact le_refl _
  | deleteClient k => exact le_refl _
  | createOrder od items now =>
      rw [show step s (Op.createOrder od items now) = (createOrder s od items now).2 from rfl,
        createOrder_counter]
      exact Nat.le_succ _
  | updateOrder k p =>
      show s.orderCounter ≤ (updateOrder s k p).2.orderCounter
      unfold updateOrder
      cases mapGet Order.id s.orders k <;> exact le_refl _
  | deleteOrder k => exact le_refl _
  | createDelivery ins => exact le_refl _
  | updateDelivery k p now =>
      show s.orderCounter ≤ (updateDelivery s k p now).2.orderCounter
      unfold updateDelivery
      cases mapGet Delivery.id s.deliveries k <;> exact le_refl _
  | createInvoice ins => exact le_refl _

/-- Every number assigned along a run exceeds the starting counter. -/
theorem assignedNumbers_gt (ops : List Op) :
    ∀ s : State, ∀ n ∈ assignedNumbers s ops, s.orderCounter < n := by
  induction ops with
  | nil => intro s n hn; simp [assignedNumbers] at hn
  | cons op ops ih =>
      intro s n hn
      rw [assignedNumbers, List.mem_append] at hn
      rcases hn with hn | hn
      · cases op <;> simp [opAssigns] at hn
        omega
      · exact lt_of_le_of_lt (step_counter_mono s op) (ih (step s op) n hn)

/-- The numbers assigned along a run are strictly increasing. -/
theorem assignedNumbers_pairwise (ops : List Op) :
    ∀ s : State, List.Pairwise (· < ·) (assignedNumbers s ops) := by
  induction ops with
  | nil => intro s; simp [assignedNumbers]
  | cons op ops ih =>
      intro s
      rw [assignedNumbers]
      cases op with
      | createOrder od items now =>
          rw [show opAssigns s (Op.createOrder od items now) = [s.orderCounter + 1] from rfl,
            List.singleton_append, List.pairwise_cons]
          refine ⟨fun n hn => ?_, ih _⟩
          have := assignedNumbers_gt ops (step s (Op.createOrder od items now)) n hn
          rw [show step s (Op.createOrder od items now) = (createOrder s od items now).2 from rfl,
            createOrder_counter] at this
          exact this
      | createClient ic => simpa [opAssigns] using ih _
      | updateClient k p => simpa [opAssigns] using ih _
      | deleteClient k => simpa [opAssigns] using ih _
      | updateOrder k p => simpa [opAssigns] using ih _
      | deleteOrder k => simpa [opAssigns] using ih _
      | createDelivery ins => simpa [opAssigns] using ih _
      | updateDelivery k p now => simpa [opAssigns] using ih _
      | createInvoice ins => simpa [opAssigns] using ih _

/-! ## Claims -/

/-- Claim C1: over any sequence of `updateDelivery` calls on a delivery,
`deliveredAt` is set exactly once — if it is unset, the first update whose
merge sets status to `"delivered"` (i.e. whose patch carries status
`"delivered"`) stamps that call's clock value (`new Date()` at the call, so
a timestamp at or after it), and every later update, including a second
update to `"delivered"`, leaves the stored timestamp unchanged; if it was
already set it is preserved verbatim. -/
theorem c1_deliveredAt_set_exactly_once (d : Delivery)
    (ups : List (DeliveryPatch × Time)) :
    (applyUpdates d ups).deliveredAt =
      match d.deliveredAt with
      | some t => some t
      | none =>
          (ups.find? (fun u => decide (u.1.status = some "delivered"))).map Prod.snd :=
  applyUpdates_deliveredAt d ups

/-- Claim C10: a caller can never set `deliveredAt` directly —
`createDelivery` stores `deliveredAt = null` whatever the insert carries,
`updateDelivery` discards any `deliveredAt` in the patch, and the stored
`deliveredAt` after an update is either the pre-existing value or the
storage-stamped current time. -/
theorem c10_deliveredAt_not_caller_settable (s : State) (ins : InsertDelivery)
    (d : Delivery) (p : DeliveryPatch) (now : Time) (x : Option (Option Time)) :
    (createDelivery s ins).1.deliveredAt = none ∧
    updateDeliveryRec d p now = updateDeliveryRec d { p with deliveredAt := x } now ∧
    ((updateDeliveryRec d p now).deliveredAt = d.deliveredAt ∨
      (updateDeliveryRec d p now).deliveredAt = some now) := by
  refine ⟨rfl, rfl, ?_⟩
  by_cases h : p.status = some "delivered" ∧ d.deliveredAt = none
  · right; simp [updateDeliveryRec, h]
  · left; simp [updateDeliveryRec, h]

/-- Claim C2: for an existing order id, `deleteOrder` removes every
`OrderItem`, `Delivery` and `Invoice` referencing it as well as the order
itself, returns `true` (a record was removed), and afterwards
`getOrderItems`, `getInvoices` and a scan of deliveries by `orderId` are
all empty. -/
theorem c2_deleteOrder_cascades (s : State) (k : Uid)
    (h : s.orders.any (fun o => o.id == k) = true) :
    (deleteOrder s k).1 = true ∧
    getOrderItems (deleteOrder s k).2 k = [] ∧
    getInvoices (deleteOrder s k).2 k = [] ∧
    (deleteOrder s k).2.deliveries.filter (fun d => d.orderId == k) = [] ∧
    mapGet Order.id (deleteOrder s k).2.orders k = none := by
  refine ⟨h, ?_, ?_, ?_, ?_⟩
  · exact filter_deleteAllByIds_matching OrderItem.id (fun it => it.orderId == k) s.orderItems
  · exact filter_deleteAllByIds_matching Invoice.id (fun i => i.orderId == k) s.invoices
  · exact filter_deleteAllByIds_matching Delivery.id (fun d => d.orderId == k) s.deliveries
  · refine List.find?_eq_none.mpr ?_
    intro x hx
    have := (List.mem_filter.mp hx).2
    simpa using this

/-- Concrete state for the C2 witness: one order (id 0) with one item, one
delivery and one invoice attached. -/
def c2state : State :=
  { orders := [{ id := 0, orderNumber := 1001, clientId := some 10,
                 supplierId := some 11, status := "pending",
                 totalValue := some "100.00", createdAt := 0 }]
    orderItems := [{ id := 1, orderId := 0, productId := 12, quantity := "1",
                     unitPrice := "100.00", totalPrice := "100.00" }]
    deliveries := [{ id := 2, orderId := 0, scheduledDate := 0, status := "pending" }]
    invoices := [{ id := 3, orderId := 0, invoiceNumber := "1", issueDate := 0 }]
    orderCounter := 1001
    nextId := 4 }

theorem c2_deleteOrder_cascades_witness :
    (c2state.orders.any (fun o => o.id == 0) = true) ∧
    ((deleteOrder c2state 0).1 = true ∧
      getOrderItems (deleteOrder c2state 0).2 0 = [] ∧
      getInvoices (deleteOrder c2state 0).2 0 = [] ∧
      (deleteOrder c2state 0).2.deliveries.filter (fun d => d.orderId == 0) = [] ∧
      mapGet Order.id (deleteOrder c2state 0).2.orders 0 = none) :=
  ⟨by decide, c2_deleteOrder_cascades c2state 0 (by decide)⟩

/-- Concrete state for C3: one orphaned delivery referencing order id 42,
while no order with id 42 exists. -/
def c3state : State :=
  (createDelivery emptyState { orderId := 42, scheduledDate := 0 }).2

/-- Claim C3 is false as stated: on a missing order id, `deleteOrder`
does return `false`, but it still attempts the cascade first
(storage.ts:503-521 run unconditionally), so the orphaned delivery with
`orderId = 42` is removed and the state changes. -/
theorem c3_counterexample :
    (deleteOrder c3state 42).1 = false ∧ (deleteOrder c3state 42).2 ≠ c3state := by
  decide

/-- Claim C3 (amended): on a missing order id, `deleteOrder` returns
`false` and leaves the orders map unchanged, but the cascade still runs:
every stored `OrderItem`/`Delivery`/`Invoice` whose `orderId` matches is
removed; when no stored child references the id, the entire state is
unchanged. -/
theorem c3_deleteOrder_missing_amended (s : State) (k : Uid) (hw : wf s)
    (h : s.orders.any (fun o => o.id == k) = false) :
    (deleteOrder s k).1 = false ∧
    (deleteOrder s k).2.orders = s.orders ∧
    (deleteOrder s k).2.orderItems = s.orderItems.filter (fun it => !(it.orderId == k)) ∧
    (deleteOrder s k).2.deliveries = s.deliveries.filter (fun d => !(d.orderId == k)) ∧
    (deleteOrder s k).2.invoices = s.invoices.filter (fun i => !(i.orderId == k)) ∧
    ((s.orderItems.all (fun it => !(it.orderId == k)) ∧
      s.deliveries.all (fun d => !(d.orderId == k)) ∧
      s.invoices.all (fun i => !(i.orderId == k))) → (deleteOrder s k).2 = s) := by
  obtain ⟨-, -, -, -, -, -, -, -, hitems, -, hdels, -, hinvs, -⟩ := hw
  have hnone : ∀ x ∈ s.orders, ¬x.id = k := by simpa using h
  have horders : (deleteOrder s k).2.orders = s.orders := by
    show s.orders.filter (fun x => !(x.id == k)) = s.orders
    refine List.filter_eq_self.mpr ?_
    intro o ho
    simp [hnone o ho]
  have hi : (deleteOrder s k).2.orderItems
      = s.orderItems.filter (fun it => !(it.orderId == k)) :=
    deleteAllByIds_matching_eq_filter OrderItem.id (fun it => it.orderId == k)
      s.orderItems hitems
  have hd : (deleteOrder s k).2.deliveries
      = s.deliveries.filter (fun d => !(d.orderId == k)) :=
    deleteAllByIds_matching_eq_filter Delivery.id (fun d => d.orderId == k)
      s.deliveries hdels
  have hv : (deleteOrder s k).2.invoices
      = s.invoices.filter (fun i => !(i.orderId == k)) :=
    deleteAllByIds_matching_eq_filter Invoice.id (fun i => i.orderId == k)
      s.invoices hinvs
  have hret : (deleteOrder s k).1 = false := h
  refine ⟨hret, horders, hi, hd, hv, ?_⟩
  rintro ⟨ha, hb, hc⟩
  have e1 : s.orderItems.filter (fun it => !(it.orderId == k)) = s.orderItems :=
    List.filter_eq_self.mpr (fun x hx => List.all_eq_true.mp ha x hx)
  have e2 : s.deliveries.filter (fun d => !(d.orderId == k)) = s.deliveries :=
    List.filter_eq_self.mpr (fun x hx => List.all_eq_true.mp hb x hx)
  have e3 : s.invoices.filter (fun i => !(i.orderId == k)) = s.invoices :=
    List.filter_eq_self.mpr (fun x hx => List.all_eq_true.mp hc x hx)
  have hsplit : (deleteOrder s k).2 =
      { s with orderItems := (deleteOrder s k).2.orderItems
               deliveries := (deleteOrder s k).2.deliveries
               invoices := (deleteOrder s k).2.invoices
               orders := (deleteOrder s k).2.orders } := rfl
  rw [hsplit, hi, hd, hv, horders, e1, e2, e3]

theorem c3_deleteOrder_missing_amended_witness :
    wf c3state ∧ (c3state.orders.any (fun o => o.id == 29) = false) ∧
    ((deleteOrder c3state 29).1 = false ∧
      (deleteOrder c3state 29).2.orders = c3state.orders ∧
      (deleteOrder c3state 29).2.orderItems
        = c3state.orderItems.filter (fun it => !(it.orderId == 29)) ∧
      (deleteOrder c3state 29).2.deliveries
        = c3state.deliveries.filter (fun d => !(d.orderId == 29)) ∧
      (deleteOrder c3state 29).2.invoices
        = c3state.invoices.filter (fun i => !(i.orderId == 29)) ∧
      ((c3state.orderItems.all (fun it => !(it.orderId == 29)) ∧
        c3state.deliveries.all (fun d => !(d.orderId == 29)) ∧
        c3state.invoices.all (fun i => !(i.orderId == 29))) →
          (deleteOrder c3state 29).2 = c3state)) :=
  ⟨by decide, by decide, c3_deleteOrder_missing_amended c3state 29 (by decide) (by decide)⟩

/-- An `InsertClient` with `active` omitted (allowed: the insert schema
makes `active` optional because the column has a database default). -/
def c4client : InsertClient :=
  { ctype := "PF", name := "Maria Souza", document := "98765432100" }

/-- Claim C4 is false as stated: `createClient` applies no defaults — with
`active` omitted from the input, the stored record's `active` is absent
(`none`), not `true` (storage.ts:388-393 stores `{ ...insertClient, id }`
verbatim). -/
theorem c4_counterexample :
    (createClient emptyState c4client).1.active = none ∧
    (createClient emptyState c4client).1.active ≠ some true := by
  decide

/-- Claim C4 (amended): every create call (client/order/delivery) assigns
a fresh id distinct from every id already stored in that entity's map, and
the created record is stored under that id; `createOrder` and
`createDelivery` default an omitted `status` to `"pending"`;
`createClient` applies no defaults at all — the stored record is the input
plus the assigned id verbatim (full record equality), in particular an
omitted `active` stays unset rather than defaulting to `true`; and
`create(client)` followed by `get` of the new id returns exactly the
stored record. -/
theorem c4_create_defaults_roundtrip (s : State) (hw : wf s) (ic : InsertClient)
    (ins : InsertDelivery) (p : OrderPatch) (items : List InsertOrderItem)
    (now : Time) (hds : ins.status = none) (hos : p.status = none) :
    (createClient s ic).1.id = s.nextId ∧
    (∀ c0 ∈ s.clients, c0.id ≠ (createClient s ic).1.id) ∧
    (createClient s ic).1 =
      { id := s.nextId, ctype := ic.ctype, name := ic.name,
        tradeName := ic.tradeName, document := ic.document,
        stateRegistration := ic.stateRegistration, email := ic.email,
        phone := ic.phone, cellphone := ic.cellphone, zipCode := ic.zipCode,
        street := ic.street, number := ic.number, complement := ic.complement,
        neighborhood := ic.neighborhood, city := ic.city, state := ic.state,
        notes := ic.notes, active := ic.active } ∧
    getClient (createClient s ic).2 (createClient s ic).1.id
      = some (createClient s ic).1 ∧
    (createDelivery s ins).1.id = s.nextId ∧
    (∀ d0 ∈ s.deliveries, d0.id ≠ (createDelivery s ins).1.id) ∧
    mapGet Delivery.id (createDelivery s ins).2.deliveries
        (createDelivery s ins).1.id
      = some (createDelivery s ins).1 ∧
    (createDelivery s ins).1.status = "pending" ∧
    (createOrder s p items now).1.id = s.nextId ∧
    (∀ o0 ∈ s.orders, o0.id ≠ (createOrder s p items now).1.id) ∧
    mapGet Order.id (createOrder s p items now).2.orders
        (createOrder s p items now).1.id
      = some (createOrder s p items now).1.toOrder ∧
    (createOrder s p items now).1.status = "pending" := by
  obtain ⟨-, hcfresh, -, -, -, -, -, hofresh, -, -, -, hdfresh, -, -⟩ := hw
  refine ⟨rfl, ?_, rfl, ?_, rfl, ?_, ?_, ?_, rfl, ?_, ?_, ?_⟩
  · intro c0 hc0
    exact Nat.ne_of_lt (hcfresh c0 hc0)
  · exact mapGet_mapSet_self Client.id s.clients (createClient s ic).1
  · intro d0 hd0
    exact Nat.ne_of_lt (hdfresh d0 hd0)
  · exact mapGet_mapSet_self Delivery.id s.deliveries (createDelivery s ins).1
  · show jsOrStr ins.status "pending" = "pending"
    rw [hds]; rfl
  · intro o0 ho0
    exact Nat.ne_of_lt (hofresh o0 ho0)
  · have horders : (createOrder s p items now).2.orders
        = mapSet Order.id s.orders (createOrder s p items now).1.toOrder := by
      show (items.foldl (addOrderItem s.nextId) _).orders = _
      rw [foldl_addOrderItem_orders]
      rfl
    rw [horders]
    exact mapGet_mapSet_self Order.id s.orders (createOrder s p items now).1.toOrder
  · show jsOrStr p.status "pending" = "pending"
    rw [hos]; rfl

/-- Concrete state for the C4 witness: one client, one order and one
delivery already stored, so the freshness conjuncts are non-vacuous. -/
def c4state : State :=
  { clients := [{ id := 0, ctype := "PJ", name := "Construtora ABC",
                  document := "12345678000199", active := some true }]
    orders := [{ id := 1, orderNumber := 1001, status := "pending", createdAt := 0 }]
    deliveries := [{ id := 2, orderId := 1, scheduledDate := 0, status := "pending" }]
    orderCounter := 1001
    nextId := 3 }

theorem c4_create_defaults_roundtrip_witness :
    wf c4state ∧ ({ orderId := 1, scheduledDate := 0 } : InsertDelivery).status = none ∧
    (({} : OrderPatch).status = none) ∧
    ((createClient c4state c4client).1.id = c4state.nextId ∧
      (∀ c0 ∈ c4state.clients, c0.id ≠ (createClient c4state c4client).1.id) ∧
      (createClient c4state c4client).1 =
        { id := c4state.nextId, ctype := c4client.ctype, name := c4client.name,
          tradeName := c4client.tradeName, document := c4client.document,
          stateRegistration := c4client.stateRegistration, email := c4client.email,
          phone := c4client.phone, cellphone := c4client.cellphone,
          zipCode := c4client.zipCode, street := c4client.street,
          number := c4client.number, complement := c4client.complement,
          neighborhood := c4client.neighborhood, city := c4client.city,
          state := c4client.state, notes := c4client.notes,
          active := c4client.active } ∧
      getClient (createClient c4state c4client).2
          (createClient c4state c4client).1.id
        = some (createClient c4state c4client).1 ∧
      (createDelivery c4state { orderId := 1, scheduledDate := 0 }).1.id
        = c4state.nextId ∧
      (∀ d0 ∈ c4state.deliveries,
        d0.id ≠ (createDelivery c4state { orderId := 1, scheduledDate := 0 }).1.id) ∧
      mapGet Delivery.id
          (createDelivery c4state { orderId := 1, scheduledDate := 0 }).2.deliveries
          (createDelivery c4state { orderId := 1, scheduledDate := 0 }).1.id
        = some (createDelivery c4state { orderId := 1, scheduledDate := 0 }).1 ∧
      (createDelivery c4state { orderId := 1, scheduledDate := 0 }).1.status
        = "pending" ∧
      (createOrder c4state {} [] 0).1.id = c4state.nextId ∧
      (∀ o0 ∈ c4state.orders, o0.id ≠ (createOrder c4state {} [] 0).1.id) ∧
      mapGet Order.id (createOrder c4state {} [] 0).2.orders
          (createOrder c4state {} [] 0).1.id
        = some (createOrder c4state {} [] 0).1.toOrder ∧
      (createOrder c4state {} [] 0).1.status = "pending") :=
  ⟨by decide, rfl, rfl,
    c4_create_defaults_roundtrip c4state (by decide) c4client
      { orderId := 1, scheduledDate := 0 } {} [] 0 rfl rfl⟩

/-- Concrete state for C5: two same-day deliveries inserted in ascending
`scheduledDate` order (01:00 and then 02:00 of the day starting at 0). -/
def c5state : State :=
  (createDelivery
    (createDelivery emptyState { orderId := 7, scheduledDate := 3600000 }).2
    { orderId := 7, scheduledDate := 7200000 }).2

/-- Claim C5 is false as stated: `getTodayDeliveries` performs no sort
(storage.ts:555-573), so with two same-day deliveries stored in ascending
schedule order the returned list is not sorted by scheduled date
descending. -/
theorem c5_counterexample :
    ¬ List.Sorted schedDesc (getTodayDeliveries c5state 0 86400000) := by
  decide

/-- Claim C5 (amended): order lists (`getOrders`, `getRecentOrders`) are
sorted by creation timestamp descending and `getDeliveries` is sorted by
scheduled date descending (ties free to keep insertion order), but
`getTodayDeliveries` returns the matching deliveries unsorted, in map
insertion order. -/
theorem c5_lists_sorted_amended (s : State) (n : Nat) (a b : Time) :
    List.Sorted createdDesc (getOrders s) ∧
    List.Sorted createdDesc (getRecentOrders s n) ∧
    List.Sorted schedDesc (getDeliveries s) ∧
    (getTodayDeliveries s a b).map (fun x => x.toDelivery)
      = s.deliveries.filter (fun d => inDayWindow a b d.scheduledDate) := by
  refine ⟨getOrders_sorted s, sorted_take (getOrders_sorted s) n,
    getDeliveries_sorted s, ?_⟩
  show ((s.deliveries.filter (fun d => inDayWindow a b d.scheduledDate)).map
      (buildDeliveryWithDetails s)).map (fun x => x.toDelivery) = _
  rw [List.map_map]
  exact List.map_id _

/-- Claim C6: `getRecentOrders n` returns at most `n` elements, sorted by
creation time descending, and is the length-`n` front of `getOrders`
(appending the dropped tail recovers the full sorted list). -/
theorem c6_recentOrders_front_of_getOrders (s : State) (n : Nat) :
    (getRecentOrders s n).length ≤ n ∧
    getRecentOrders s n ++ (getOrders s).drop n = getOrders s ∧
    List.Sorted createdDesc (getRecentOrders s n) := by
  refine ⟨?_, List.take_append_drop n (getOrders s),
    sorted_take (getOrders_sorted s) n⟩
  show ((getOrders s).take n).length ≤ n
  rw [List.length_take]
  exact Nat.min_le_left _ _

/-- Claim C7: `getTodayDeliveries` returns exactly the deliveries whose
`scheduledDate` lies in the half-open window from local midnight of the
current day (`todayStart`) up to but excluding the next local midnight
(`tomorrowStart`): a stored delivery appears in the result precisely when
its schedule is in `[todayStart, tomorrowStart)`. -/
theorem c7_todayDeliveries_halfopen_window (s : State) (mid midNext : Time)
    (d : Delivery) (hd : d ∈ s.deliveries) :
    (mid ≤ d.scheduledDate ∧ d.scheduledDate < midNext) ↔
      ∃ x ∈ getTodayDeliveries s mid midNext, x.toDelivery = d := by
  constructor
  · intro hw
    refine ⟨buildDeliveryWithDetails s d, ?_, rfl⟩
    exact List.mem_map_of_mem _
      (List.mem_filter.mpr ⟨hd, by simp [inDayWindow, hw.1, hw.2]⟩)
  · rintro ⟨x, hx, hxd⟩
    rcases List.mem_map.mp hx with ⟨d2, hd2, hbuild⟩
    have hdd : d2 = d := by rw [← hxd, ← hbuild]; rfl
    rcases List.mem_filter.mp hd2 with ⟨-, hwin⟩
    rw [hdd] at hwin
    simpa [inDayWindow] using hwin

/-- Concrete state for the C7 witness, with the day running from 86400000
to 172800000: one delivery the evening before (23:59), one at noon of the
day, one exactly at the next midnight. -/
def c7state : State :=
  { deliveries :=
      [{ id := 0, orderId := 7, scheduledDate := 86340000, status := "pending" },
       { id := 1, orderId := 7, scheduledDate := 129600000, status := "pending" },
       { id := 2, orderId := 7, scheduledDate := 172800000, status := "pending" }]
    orderCounter := 1000
    nextId := 3 }

theorem c7_todayDeliveries_halfopen_window_witness :
    ({ id := 1, orderId := 7, scheduledDate := 129600000,
       status := "pending" } : Delivery) ∈ c7state.deliveries ∧
    (((86400000 : Time) ≤ 129600000 ∧ (129600000 : Time) < 172800000) ↔
      ∃ x ∈ getTodayDeliveries c7state 86400000 172800000,
        x.toDelivery = { id := 1, orderId := 7, scheduledDate := 129600000,
                         status := "pending" }) :=
  ⟨by decide,
    c7_todayDeliveries_halfopen_window c7state 86400000 172800000
      { id := 1, orderId := 7, scheduledDate := 129600000, status := "pending" }
      (by decide)⟩

/-- The contribution of one order to the monthly total as the spec states
it: its `totalValue` parsed as a number, with an empty or missing value
contributing zero. -/
def specMonthlyContribution (o : Order) : ℚ :=
  match o.totalValue with
  | none => 0
  | some v => if v = "" then 0 else (parseFloatQ v).getD 0

/-- The spec-side monthly aggregate: the sum of `totalValue` over all
orders created at or after the start of the current calendar month. -/
def specMonthlyValue (s : State) (monthStart : Time) : ℚ :=
  ((s.orders.filter (fun o => decide (monthStart ≤ o.createdAt))).map
    specMonthlyContribution).sum

/-- Claim C8: `getDashboardStats` returns exactly the count of orders with
status `"pending"`, the count of deliveries scheduled within the current
local calendar day, the count of clients whose `active` flag is `true`,
and the sum of `totalValue` over orders created since the start of the
current month, with empty or missing `totalValue` contributing zero.  The
hypothesis restricts every non-empty monthly `totalValue` to a parseable
decimal string (otherwise `parseFloat` yields `NaN` and the JavaScript sum
is `NaN`, which the claim does not describe). -/
theorem c8_dashboardStats_exact (s : State) (t0 t1 m0 : Time)
    (h : ∀ o ∈ s.orders, m0 ≤ o.createdAt →
      ∀ v, o.totalValue = some v → v ≠ "" → (parseFloatQ v).isSome) :
    (getDashboardStats s t0 t1 m0).pendingOrders
      = s.orders.countP (fun o => o.status == "pending") ∧
    (getDashboardStats s t0 t1 m0).todayDeliveries
      = s.deliveries.countP (fun d => inDayWindow t0 t1 d.scheduledDate) ∧
    (getDashboardStats s t0 t1 m0).activeClients
      = s.clients.countP (fun c => c.active == some true) ∧
    (getDashboardStats s t0 t1 m0).monthlyValue = some (specMonthlyValue s m0) := by
  refine ⟨?_, ?_, ?_, ?_⟩
  · rw [List.countP_eq_length_filter]; rfl
  · rw [List.countP_eq_length_filter]; rfl
  · rw [List.countP_eq_length_filter]
    show (s.clients.filter (fun c => jsTruthy c.active)).length = _
    congr 1
    apply List.filter_congr
    intro c _
    cases hc : c.active with
    | none => rfl
    | some b => cases b <;> rfl
  · show (s.orders.filter (fun o => decide (m0 ≤ o.createdAt))).foldl
        (fun acc o => jsAdd acc (parseFloatQ (jsOrStr o.totalValue "0"))) (some 0)
      = some (specMonthlyValue s m0)
    have hparse : ∀ o ∈ s.orders.filter (fun o => decide (m0 ≤ o.createdAt)),
        parseFloatQ (jsOrStr o.totalValue "0") = some (specMonthlyContribution o) := by
      intro o ho
      rcases List.mem_filter.mp ho with ⟨hmem, hge⟩
      have hge2 : m0 ≤ o.createdAt := by simpa using hge
      cases hv : o.totalValue with
      | none =>
          simp only [jsOrStr, hv, specMonthlyContribution]
          decide
      | some v =>
          by_cases hemp : v = ""
          · subst hemp
            simp [jsOrStr, specMonthlyContribution, hv]
            decide
          · have hsome := h o hmem hge2 v hv hemp
            rcases Option.isSome_iff_exists.mp hsome with ⟨q, hq⟩
            simp [jsOrStr, specMonthlyContribution, hv, hemp, hq]
    rw [foldl_jsAdd_eq_sum _ specMonthlyContribution _ hparse 0]
    rw [zero_add]
    rfl

/-- Concrete state for the C8 witness: one pending monthly order with a
parseable total, one monthly order with a missing total, one old order
outside the month; an active and an `active`-less client; one delivery in
the day window and one outside it. -/
def c8state : State :=
  { clients := [{ id := 0, ctype := "PF", name := "A", document := "1",
                  active := some true },
                { id := 1, ctype := "PJ", name := "B", document := "2" }]
    orders := [{ id := 2, orderNumber := 1001, status := "pending",
                 totalValue := some "4500.00", createdAt := 10 },
               { id := 3, orderNumber := 1002, status := "confirmed",
                 createdAt := 20 },
               { id := 4, orderNumber := 1003, status := "pending",
                 totalValue := some "2100.00", createdAt := -50 }]
    deliveries := [{ id := 5, orderId := 2, scheduledDate := 50, status := "pending" },
                   { id := 6, orderId := 4, scheduledDate := -100, status := "delivered" }]
    orderCounter := 1003
    nextId := 7 }

theorem c8_dashboardStats_exact_witness :
    (∀ o ∈ c8state.orders, (0 : Time) ≤ o.createdAt →
      ∀ v, o.totalValue = some v → v ≠ "" → (parseFloatQ v).isSome) ∧
    ((getDashboardStats c8state 0 86400000 0).pendingOrders
        = c8state.orders.countP (fun o => o.status == "pending") ∧
      (getDashboardStats c8state 0 86400000 0).todayDeliveries
        = c8state.deliveries.countP (fun d => inDayWindow 0 86400000 d.scheduledDate) ∧
      (getDashboardStats c8state 0 86400000 0).activeClients
        = c8state.clients.countP (fun c => c.active == some true) ∧
      (getDashboardStats c8state 0 86400000 0).monthlyValue
        = some (specMonthlyValue c8state 0)) :=
  ⟨by decide, c8_dashboardStats_exact c8state 0 86400000 0 (by decide)⟩

/-- Claim C9: order display numbers are assigned at creation from a
monotonically increasing counter seeded at 1000 (storage.ts:91, already at
1003 once `seedData` finishes): along any sequence of storage calls from a
state whose counter is at least the seed, the assigned numbers are
strictly increasing — an order created later gets a strictly greater
number, none is ever reused even after deletions — and all exceed 1000. -/
theorem c9_orderNumbers_increasing (s : State) (ops : List Op)
    (h : 1000 ≤ s.orderCounter) :
    List.Pairwise (· < ·) (assignedNumbers s ops) ∧
    ∀ n ∈ assignedNumbers s ops, 1000 < n :=
  ⟨assignedNumbers_pairwise ops s,
    fun n hn => lt_of_le_of_lt h (assignedNumbers_gt ops s n hn)⟩

/-- A run with a deletion between two creations, for the C9 witness. -/
def c9ops : List Op :=
  [Op.createOrder {} [] 0, Op.deleteOrder 0, Op.createOrder {} [] 5]

theorem c9_orderNumbers_increasing_witness :
    1000 ≤ emptyState.orderCounter ∧
    (List.Pairwise (· < ·) (assignedNumbers emptyState c9ops) ∧
      ∀ n ∈ assignedNumbers emptyState c9ops, 1000 < n) :=
  ⟨by decide, c9_orderNumbers_increasing emptyState c9ops (by decide)⟩
